import Mathlib

/-!
Shallow embedding of the `selfupdate` Go package: the updater session, the
filesystem state, and the transactional binary-replacement algorithm
(`fromStream`), together with the public operations `Update`, `UpdateForce`,
`UpdateAvailable`, `WantUpdate`, `canUpdate` and `BackgroundRun`
(src/selfupdate/selfupdate.go).

Filesystem effects are modelled as a map from absolute paths to file data.
Each fallible OS call takes an outcome oracle (`none` = the call is allowed
to succeed, `some e` = the call fails and reports error message `e`), so
theorems can quantify over failure scenarios.  Errors are modelled by their
Go message strings.  Network fetches are modelled by oracles as well, and a
trace of network events is recorded so that "no network request" claims are
statable.
-/

namespace Selfupdate

/-- Byte strings are lists of byte values. -/
abbrev Bytes := List Nat

/-- Contents, permission bits and hidden attribute of one file. -/
structure FileData where
  contents : Bytes
  perm : Nat
  hidden : Bool
deriving DecidableEq, Repr

/-- The file system: a map from absolute paths to files. -/
abbrev FS := String → Option FileData

/-- Create or overwrite the file at `p`. -/
def fsSet (fs : FS) (p : String) (d : FileData) : FS :=
  fun q => if q = p then some d else fs q

/-- Delete the file at `p` (no-op if absent). -/
def fsRemove (fs : FS) (p : String) : FS :=
  fun q => if q = p then none else fs q

/-- Model of `filepath.Base`: the part of the path after the last slash
(for the ordinary absolute paths the updater works with). -/
def baseOf (p : String) : String :=
  ⟨(p.data.reverse.takeWhile (fun c => c ≠ '/')).reverse⟩

/-- Model of `filepath.Dir`: the part of the path before the last slash
(for the ordinary absolute paths the updater works with). -/
def dirOf (p : String) : String :=
  ⟨(((p.data.reverse.dropWhile (fun c => c ≠ '/')).drop 1).reverse)⟩

/-- Model of `filepath.Join(dir, file)` for one file component. -/
def joinPath (d f : String) : String := d ++ "/" ++ f

/-- The hidden staging path `filepath.Join(dir, fmt.Sprintf(".%s.new", name))`
derived from the executable path (selfupdate.go line 243). -/
def newPathOf (p : String) : String :=
  joinPath (dirOf p) ("." ++ baseOf p ++ ".new")

/-- The hidden backup path `filepath.Join(dir, fmt.Sprintf(".%s.old", name))`
derived from the executable path (selfupdate.go line 256). -/
def oldPathOf (p : String) : String :=
  joinPath (dirOf p) ("." ++ baseOf p ++ ".old")

/-- Model of `os.OpenFile(p, O_CREATE|O_WRONLY|O_TRUNC, perm)`: truncates an
existing file keeping its permission bits (POSIX applies the mode only on
creation); creates a fresh empty file with the given bits otherwise. -/
def osCreateTrunc (oracle : Option String) (fs : FS) (p : String) (perm : Nat) :
    Except String FS :=
  match oracle with
  | some e => .error e
  | none =>
    match fs p with
    | some d => .ok (fsSet fs p ⟨[], d.perm, d.hidden⟩)
    | none => .ok (fsSet fs p ⟨[], perm, false⟩)

/-- Model of `io.Copy` of a complete in-memory buffer into the file at `p`
(which `fromStream` has just created/truncated). -/
def osWriteAll (oracle : Option String) (fs : FS) (p : String) (b : Bytes) :
    Option String × FS :=
  match oracle with
  | some e => (some e, fs)
  | none =>
    match fs p with
    | some d => (none, fsSet fs p ⟨d.contents ++ b, d.perm, d.hidden⟩)
    | none => (some ("write " ++ p ++ ": file not open"), fs)

/-- Model of `os.Remove`: fails on a missing file or when the oracle says so
(for example Windows refusing to delete a mapped running image). -/
def osRemove (oracle : Option String) (fs : FS) (p : String) :
    Option String × FS :=
  match oracle with
  | some e => (some e, fs)
  | none =>
    match fs p with
    | some _ => (none, fsRemove fs p)
    | none => (some ("remove " ++ p ++ ": no such file or directory"), fs)

/-- Model of `os.Rename(src, dst)`: moves the file, overwriting `dst`; fails
on a missing source or when the oracle says so. -/
def osRename (oracle : Option String) (fs : FS) (src dst : String) :
    Option String × FS :=
  match oracle with
  | some e => (some e, fs)
  | none =>
    match fs src with
    | some d => (none, fsSet (fsRemove fs src) dst d)
    | none => (some ("rename " ++ src ++ ": no such file or directory"), fs)

/-- Model of `os.Open(p)` for reading: never mutates the filesystem; fails on
a missing file or when the oracle says so. -/
def osOpenRead (oracle : Option String) (fs : FS) (p : String) :
    Option String :=
  match oracle with
  | some e => some e
  | none =>
    match fs p with
    | some _ => none
    | none => some ("open " ++ p ++ ": no such file or directory")

/-- Model of `hideFile` (hide_windows.go): sets the hidden attribute of the
file; fails when the oracle says so. -/
def hideFile (oracle : Option String) (fs : FS) (p : String) :
    Option String × FS :=
  match oracle with
  | some e => (some e, fs)
  | none =>
    match fs p with
    | some d => (none, fsSet fs p ⟨d.contents, d.perm, true⟩)
    | none => (some ("hide " ++ p ++ ": no such file"), fs)

/-- Outcome oracles for every fallible external call one update cycle can
make.  `Except`-valued fields carry the successful value or the error; the
`Option String` fields are `none` when the corresponding call is allowed to
succeed. -/
structure Env where
  osExecutable : Except String String
  evalSymlinks : String → Except String String
  openOld : Option String
  fetchInfo : Except String String
  fetchBin : Except String Bytes
  readAll : Option String
  openNew : Option String
  copyNew : Option String
  removePre : Option String
  renameEvac : Option String
  renamePromote : Option String
  renameRecover : Option String
  removeBackup : Option String
  hideBackup : Option String
  canUpdateOpen : Option String
  canUpdateRemove : Option String

/-- The updater session.  URL building (ApiURL, CmdName, platform, and the
percent-encoding) is folded into the `fetchInfo`/`fetchBin` oracles of the
environment; `infoVersion` is the mutable `u.Info.Version` field. -/
structure Updater where
  currentVersion : String
  infoVersion : String
  hasCallback : Bool
deriving DecidableEq, Repr

/-- Observable events of one update cycle: the two network fetches and the
success-callback invocation. -/
inductive Event where
  | fetchManifest
  | fetchBinary (version : String)
  | callback
deriving DecidableEq, Repr

/-- Result of one public operation: the returned error (`none` = nil), the
final filesystem, the event trace, and the updater with its possibly
refreshed `Info`. -/
structure RunResult where
  err : Option String
  fs : FS
  trace : List Event
  updater : Updater

/-- Model of `fromStream` (selfupdate.go lines 226-286).  Note that the
source assigns the `io.Copy` error to `err` but never checks it before `err`
is overwritten by the evacuate `os.Rename` (line 264), so a copy failure is
discarded; the model reproduces this by dropping the first component of
`osWriteAll`.  The first returned component is `(err, errRecover)`. -/
def fromStream (env : Env) (streamBytes : Bytes) (fs : FS) :
    (Option String × Option String) × FS :=
  match env.osExecutable with
  | .error e => ((some e, none), fs)
  | .ok updatePath =>
    match env.readAll with
    | some e => ((some e, none), fs)
    | none =>
      let newPath := newPathOf updatePath
      match osCreateTrunc env.openNew fs newPath 0o755 with
      | .error e => ((some e, none), fs)
      | .ok fs1 =>
        let fs2 := (osWriteAll env.copyNew fs1 newPath streamBytes).2
        let oldPath := oldPathOf updatePath
        let fs3 := (osRemove env.removePre fs2 oldPath).2
        match osRename env.renameEvac fs3 updatePath oldPath with
        | (some e, fs4) => ((some e, none), fs4)
        | (none, fs4) =>
          match osRename env.renamePromote fs4 newPath updatePath with
          | (some e, fs5) =>
            let recov := osRename env.renameRecover fs5 oldPath updatePath
            ((some e, recov.1), recov.2)
          | (none, fs5) =>
            match osRemove env.removeBackup fs5 oldPath with
            | (some _, fs6) => ((none, none), (hideFile env.hideBackup fs6 oldPath).2)
            | (none, fs6) => ((none, none), fs6)

/-- Model of the `filepath.EvalSymlinks` step of `Update`/`UpdateForce`
(lines 136-138, 190-192): on success the resolved path replaces the one
reported by the OS, on failure the original path is kept. -/
def resolvePath (env : Env) (p : String) : String :=
  match env.evalSymlinks p with
  | .ok r => r
  | .error _ => p

/-- Model of Go `%q` on an error message, as used by the dual-failure
formatting (escaping of quote characters inside the message is not
tracked). -/
def goQuote (s : String) : String := "\"" ++ s ++ "\""

/-- Rendering of a possibly-nil error under `%q`. -/
def quoteOptErr : Option String → String
  | some e => goQuote e
  | none => "%!q(<nil>)"

/-- Model of `fmt.Errorf("update and recovery errors: %q %q", err,
errRecover)` (lines 169, 212). -/
def combineErrors (e : Option String) (er : String) : String :=
  "update and recovery errors: " ++ quoteOptErr e ++ " " ++ goQuote er

/-- Shared tail of `Update` and `UpdateForce`: open the original for
reading, fetch the full binary, run `fromStream` and combine its two
errors, then fire the success callback (lines 151-180, 194-223). -/
def updateTail (env : Env) (u : Updater) (fs : FS) (path : String)
    (preTrace : List Event) : RunResult :=
  match osOpenRead env.openOld fs path with
  | some e => ⟨some e, fs, preTrace, u⟩
  | none =>
    match env.fetchBin with
    | .error e => ⟨some e, fs, preTrace ++ [.fetchBinary u.infoVersion], u⟩
    | .ok bin =>
      match fromStream env bin fs with
      | ((e, some er), fs') =>
        ⟨some (combineErrors e er), fs', preTrace ++ [.fetchBinary u.infoVersion], u⟩
      | ((some e, none), fs') =>
        ⟨some e, fs', preTrace ++ [.fetchBinary u.infoVersion], u⟩
      | ((none, none), fs') =>
        ⟨none, fs',
          preTrace ++ [.fetchBinary u.infoVersion] ++
            (if u.hasCallback then [.callback] else []), u⟩

/-- Model of `Update` (selfupdate.go lines 130-181). -/
def Update (env : Env) (u : Updater) (fs : FS) : RunResult :=
  match env.osExecutable with
  | .error e => ⟨some e, fs, [], u⟩
  | .ok path0 =>
    let path := resolvePath env path0
    match env.fetchInfo with
    | .error e => ⟨some e, fs, [.fetchManifest], u⟩
    | .ok v =>
      let u1 : Updater := ⟨u.currentVersion, v, u.hasCallback⟩
      if u1.infoVersion = u1.currentVersion then ⟨none, fs, [.fetchManifest], u1⟩
      else updateTail env u1 fs path [.fetchManifest]

/-- Model of `UpdateForce` (selfupdate.go lines 184-224): no `FetchInfo`
call and no version comparison appear in its body. -/
def UpdateForce (env : Env) (u : Updater) (fs : FS) : RunResult :=
  match env.osExecutable with
  | .error e => ⟨some e, fs, [], u⟩
  | .ok path0 =>
    let path := resolvePath env path0
    updateTail env u fs path []

/-- Model of `WantUpdate` (lines 98-104). -/
def WantUpdate (u : Updater) : Bool :=
  if u.currentVersion = "dev" then false else true

/-- Model of `canUpdate` (lines 60-80): the pre-flight writability probe
creating and removing the staging file beside the executable. -/
def canUpdate (env : Env) (fs : FS) : Option String × FS :=
  match env.osExecutable with
  | .error e => (some e, fs)
  | .ok path =>
    match osCreateTrunc env.canUpdateOpen fs (newPathOf path) 0o755 with
    | .error e => (some e, fs)
    | .ok fs1 => (none, (osRemove env.canUpdateRemove fs1 (newPathOf path)).2)

/-- Model of `BackgroundRun` (lines 83-94). -/
def BackgroundRun (env : Env) (u : Updater) (fs : FS) : RunResult :=
  if WantUpdate u then
    match canUpdate env fs with
    | (some e, fs') => ⟨some e, fs', [], u⟩
    | (none, fs') => Update env u fs'
  else ⟨none, fs, [], u⟩

/-- Model of `UpdateAvailable` (lines 107-127): returns the Go result pair
together with the (unchanged) filesystem and the network trace.  Note the
executable path is not symlink-resolved here and the file is only opened
for reading. -/
def UpdateAvailable (env : Env) (u : Updater) (fs : FS) :
    (String × Option String) × FS × List Event :=
  match env.osExecutable with
  | .error e => (("", some e), fs, [])
  | .ok path =>
    match osOpenRead env.openOld fs path with
    | some e => (("", some e), fs, [])
    | none =>
      match env.fetchInfo with
      | .error e => (("", some e), fs, [Event.fetchManifest])
      | .ok v =>
        if v = u.currentVersion then (("", none), fs, [Event.fetchManifest])
        else ((v, none), fs, [Event.fetchManifest])

/-- Modelled from the claim's reading of the spec (refinement target for the
force-update operation): `Update` with only the version-equality
short-circuit removed — it still resolves the manifest before fetching the
binary for the manifest version. -/
def UpdateForceSpec (env : Env) (u : Updater) (fs : FS) : RunResult :=
  match env.osExecutable with
  | .error e => ⟨some e, fs, [], u⟩
  | .ok path0 =>
    let path := resolvePath env path0
    match env.fetchInfo with
    | .error e => ⟨some e, fs, [.fetchManifest], u⟩
    | .ok v =>
      let u1 : Updater := ⟨u.currentVersion, v, u.hasCallback⟩
      updateTail env u1 fs path [.fetchManifest]

/-- Amended reading of the force-update operation: `Update` with both the
manifest resolution and the version-equality short-circuit removed — the
binary is fetched for the version already stored in `u.Info`. -/
def UpdateMinusManifestAndCheck (env : Env) (u : Updater) (fs : FS) : RunResult :=
  match env.osExecutable with
  | .error e => ⟨some e, fs, [], u⟩
  | .ok path0 =>
    let path := resolvePath env path0
    updateTail env u fs path []

/-- String `a` occurs inside `b` as a contiguous substring. -/
def strOccurs (a b : String) : Prop := ∃ l r, b = l ++ a ++ r

/-- Concrete environment in which every external call succeeds: the
executable is `/d/app`, which is not a symlink, the manifest advertises
version `2.0`, and the fetched binary is `[9, 9, 9]`. -/
def envOk : Env where
  osExecutable := .ok "/d/app"
  evalSymlinks := fun _ => .error "not a symlink"
  openOld := none
  fetchInfo := .ok "2.0"
  fetchBin := .ok [9, 9, 9]
  readAll := none
  openNew := none
  copyNew := none
  removePre := none
  renameEvac := none
  renamePromote := none
  renameRecover := none
  removeBackup := none
  hideBackup := none
  canUpdateOpen := none
  canUpdateRemove := none

/-- Concrete filesystem holding only the original executable `/d/app`, with
contents `[1, 2, 3]` and permission bits `0o700`. -/
def fsApp : FS :=
  fun p => if p = "/d/app" then some ⟨[1, 2, 3], 0o700, false⟩ else none

/-- A session at version `1.0` with no stored manifest info. -/
def uStd : Updater := ⟨"1.0", "", false⟩

/-- A session at the sentinel development version. -/
def uDev : Updater := ⟨"dev", "", false⟩

/-- A session whose `Info.Version` still holds `9.9` from an earlier
manifest fetch. -/
def uStale : Updater := ⟨"1.0", "9.9", false⟩

/-- Environment in which `io.Copy` into the staged file fails. -/
def envCopyFail : Env := { envOk with copyNew := some "disk full" }

/-- Environment in which the manifest fetch fails. -/
def envNoManifest : Env := { envOk with fetchInfo := .error "manifest down" }

/-- Environment in which the evacuate rename fails. -/
def envEvacFail : Env := { envOk with renameEvac := some "evac denied" }

/-- Environment in which the promote rename fails and recovery succeeds. -/
def envPromFail : Env := { envOk with renamePromote := some "promote denied" }

/-- Environment in which both the promote and the recovery renames fail. -/
def envPromRecFail : Env :=
  { envPromFail with renameRecover := some "recover denied" }

/-- Environment in which deleting the backup after a successful promote
fails (as on Windows while the old image is still mapped). -/
def envRmBackupFail : Env := { envOk with removeBackup := some "backup busy" }

/-- Environment in which the executable path cannot be determined. -/
def envExecFail : Env := { envOk with osExecutable := .error "no exec path" }

/-- Environment in which the executable cannot be opened for reading. -/
def envOpenFail : Env := { envOk with openOld := some "open denied" }

/-- Environment whose manifest version equals `uStd`'s current version. -/
def envEqVer : Env := { envOk with fetchInfo := .ok "1.0" }

/-- Environment in which the OS reports the symlink `/d/link` as the
executable path and symlink resolution yields `/d/real`. -/
def envSym : Env :=
  { envOk with
    osExecutable := .ok "/d/link"
    evalSymlinks := fun s => if s = "/d/link" then .ok "/d/real" else .error "not a symlink" }

/-- Filesystem for the symlink scenario: the symlink path and its target
both carry file data. -/
def fsSym : FS :=
  fun p =>
    if p = "/d/link" then some ⟨[1], 0o755, false⟩
    else if p = "/d/real" then some ⟨[7], 0o755, false⟩ else none

/-- Appending of strings is associative (helper for substring facts). -/
theorem strAppendAssoc (a b c : String) : a ++ b ++ c = a ++ (b ++ c) := by
  rcases a with ⟨a⟩
  rcases b with ⟨b⟩
  rcases c with ⟨c⟩
  exact congrArg String.mk (List.append_assoc a b c)

/-- The promote-error message occurs inside the dual-failure message. -/
theorem strOccurs_combine_left (e er : String) :
    strOccurs e (combineErrors (some e) er) := by
  refine ⟨"update and recovery errors: " ++ "\"", "\"" ++ " " ++ goQuote er, ?_⟩
  simp only [combineErrors, quoteOptErr, goQuote, strAppendAssoc]

/-- The recovery-error message occurs inside the dual-failure message. -/
theorem strOccurs_combine_right (e er : String) :
    strOccurs er (combineErrors (some e) er) := by
  refine ⟨"update and recovery errors: " ++ ("\"" ++ (e ++ ("\"" ++ (" " ++ "\"")))),
    "\"", ?_⟩
  simp only [combineErrors, quoteOptErr, goQuote, strAppendAssoc]

/-- Whatever `updateTail` does, its trace extends the given prefix trace. -/
theorem mem_updateTail_trace (env : Env) (u : Updater) (fs : FS) (path : String)
    (t : List Event) (x : Event) (hx : x ∈ t) :
    x ∈ (updateTail env u fs path t).trace := by
  unfold updateTail
  split
  · exact hx
  split
  · exact List.mem_append_left _ hx
  split
  · exact List.mem_append_left _ hx
  · exact List.mem_append_left _ hx
  · exact List.mem_append_left _ (List.mem_append_left _ hx)

/-- Characterisation of `fromStream` when the promote rename fails: the
returned pair carries the promote error first and the recovery rename's
outcome second. -/
theorem fromStream_promote_fail
    (env : Env) (B : Bytes) (fs : FS) (p : String) (d : FileData) (e : String)
    (hexec : env.osExecutable = .ok p)
    (hread : env.readAll = none)
    (hnew : env.openNew = none)
    (hcopy : env.copyNew = none)
    (hevac : env.renameEvac = none)
    (horig : fs p = some d)
    (h1 : p ≠ newPathOf p) (h2 : p ≠ oldPathOf p) (h3 : newPathOf p ≠ oldPathOf p)
    (hprom : env.renamePromote = some e) :
    (env.renameRecover = none → (fromStream env B fs).1 = (some e, none)) ∧
    (∀ er, env.renameRecover = some er → (fromStream env B fs).1 = (some e, some er)) := by
  constructor
  · intro hrr
    rcases hnp : fs (newPathOf p) with _ | dnp <;>
    rcases hrp : env.removePre with _ | e0 <;>
    rcases hold : fs (oldPathOf p) with _ | dold <;>
      simp [fromStream, hexec, hread, osCreateTrunc, hnew, osWriteAll, hcopy,
        osRemove, osRename, hevac, hprom, hrr, hrp, fsSet, fsRemove, hnp, hold, horig,
        h1, h2, h3, Ne.symm h1, Ne.symm h2, Ne.symm h3]
  · intro er hrr
    rcases hnp : fs (newPathOf p) with _ | dnp <;>
    rcases hrp : env.removePre with _ | e0 <;>
    rcases hold : fs (oldPathOf p) with _ | dold <;>
      simp [fromStream, hexec, hread, osCreateTrunc, hnew, osWriteAll, hcopy,
        osRemove, osRename, hevac, hprom, hrr, hrp, fsSet, fsRemove, hnp, hold, horig,
        h1, h2, h3, Ne.symm h1, Ne.symm h2, Ne.symm h3]

/-- Characterisation of the fully successful replacement transaction: no
error is returned, the canonical path holds the staged bytes, the staging
file is gone, and the backup is deleted, or hidden when its deletion fails
and the hide call succeeds. -/
theorem fromStream_success_spec
    (env : Env) (B : Bytes) (fs : FS) (p : String) (d : FileData)
    (hexec : env.osExecutable = .ok p)
    (hread : env.readAll = none)
    (hnew : env.openNew = none)
    (hcopy : env.copyNew = none)
    (hevac : env.renameEvac = none)
    (hprom : env.renamePromote = none)
    (horig : fs p = some d)
    (h1 : p ≠ newPathOf p) (h2 : p ≠ oldPathOf p) (h3 : newPathOf p ≠ oldPathOf p) :
    (fromStream env B fs).1 = (none, none) ∧
    ((fromStream env B fs).2 p).map FileData.contents = some B ∧
    (fromStream env B fs).2 (newPathOf p) = none ∧
    (env.removeBackup = none → (fromStream env B fs).2 (oldPathOf p) = none) ∧
    (∀ e, env.removeBackup = some e → env.hideBackup = none →
      ((fromStream env B fs).2 (oldPathOf p)).map FileData.hidden = some true) := by
  rcases hnp : fs (newPathOf p) with _ | dnp <;>
  rcases hrp : env.removePre with _ | e0 <;>
  rcases hold : fs (oldPathOf p) with _ | dold <;>
  rcases hrb : env.removeBackup with _ | e1 <;>
  rcases hhb : env.hideBackup with _ | e2 <;>
    simp [fromStream, hexec, hread, osCreateTrunc, hnew, osWriteAll, hcopy,
      osRemove, osRename, hevac, hprom, hrb, hhb, hrp, hideFile, fsSet, fsRemove,
      hnp, hold, horig, h1, h2, h3, Ne.symm h1, Ne.symm h2, Ne.symm h3]

/-- Frame property of the successful replacement transaction: paths other
than the executable, the staging file and the backup are untouched. -/
theorem fromStream_success_frame
    (env : Env) (B : Bytes) (fs : FS) (p : String) (d : FileData)
    (hexec : env.osExecutable = .ok p)
    (hread : env.readAll = none)
    (hnew : env.openNew = none)
    (hcopy : env.copyNew = none)
    (hevac : env.renameEvac = none)
    (hprom : env.renamePromote = none)
    (horig : fs p = some d)
    (h1 : p ≠ newPathOf p) (h2 : p ≠ oldPathOf p) (h3 : newPathOf p ≠ oldPathOf p) :
    ∀ q, q ≠ p → q ≠ newPathOf p → q ≠ oldPathOf p →
      (fromStream env B fs).2 q = fs q := by
  intro q hq1 hq2 hq3
  rcases hnp : fs (newPathOf p) with _ | dnp <;>
  rcases hrp : env.removePre with _ | e0 <;>
  rcases hold : fs (oldPathOf p) with _ | dold <;>
  rcases hrb : env.removeBackup with _ | e1 <;>
  rcases hhb : env.hideBackup with _ | e2 <;>
    simp [fromStream, hexec, hread, osCreateTrunc, hnew, osWriteAll, hcopy,
      osRemove, osRename, hevac, hprom, hrb, hhb, hrp, hideFile, fsSet, fsRemove,
      hnp, hold, horig, h1, h2, h3, Ne.symm h1, Ne.symm h2, Ne.symm h3,
      hq1, hq2, hq3]

/-- C1: the claim says any failure while writing the staged bytes (creating
the temp file or copying the bytes into it) makes `fromStream` return that
error with neither rename performed.  The code only honours this for the
create step: a failing `io.Copy` is assigned to `err` but `err` is
overwritten by the evacuate rename before being checked, so with a failing
copy and otherwise healthy renames the transaction proceeds, promotes the
truncated (empty) staged file over the original and reports success. -/
theorem fromStream_copy_error_swallowed :
    (fromStream envCopyFail [1, 2, 3] fsApp).1 = (none, none) ∧
    (fromStream envCopyFail [1, 2, 3] fsApp).2 "/d/app" = some ⟨[], 0o755, false⟩ ∧
    (fromStream envCopyFail [1, 2, 3] fsApp).2 "/d/.app.old" = none ∧
    fsApp "/d/app" = some ⟨[1, 2, 3], 0o700, false⟩ := by
  decide

/-- C2: when the promote rename fails, `Update` (and `UpdateForce`) return
exactly the promote error if the recovery rename succeeds; if recovery also
fails they return the combined message, which contains both the promote and
the recovery error texts. -/
theorem update_promote_failure_errors
    (env : Env) (u : Updater) (fs : FS) (p v : String) (bin : Bytes)
    (d dr : FileData) (e : String)
    (hexec : env.osExecutable = .ok p)
    (hinfo : env.fetchInfo = .ok v)
    (hv : v ≠ u.currentVersion)
    (hoo : env.openOld = none)
    (hfsr : fs (resolvePath env p) = some dr)
    (hbin : env.fetchBin = .ok bin)
    (hread : env.readAll = none)
    (hnew : env.openNew = none)
    (hcopy : env.copyNew = none)
    (hevac : env.renameEvac = none)
    (horig : fs p = some d)
    (h1 : p ≠ newPathOf p) (h2 : p ≠ oldPathOf p) (h3 : newPathOf p ≠ oldPathOf p)
    (hprom : env.renamePromote = some e) :
    (env.renameRecover = none →
      (Update env u fs).err = some e ∧ (UpdateForce env u fs).err = some e) ∧
    (∀ er, env.renameRecover = some er →
      ((Update env u fs).err = some (combineErrors (some e) er) ∧
       (UpdateForce env u fs).err = some (combineErrors (some e) er)) ∧
      strOccurs e (combineErrors (some e) er) ∧
      strOccurs er (combineErrors (some e) er)) := by
  have key := fromStream_promote_fail env bin fs p d e hexec hread hnew hcopy hevac
    horig h1 h2 h3 hprom
  constructor
  · intro hrr
    have hkey := key.1 hrr
    rcases hfs : fromStream env bin fs with ⟨⟨e1, e2⟩, fs'⟩
    rw [hfs] at hkey
    injection hkey with he1 he2
    subst he1; subst he2
    constructor <;>
      simp [Update, UpdateForce, hexec, hinfo, hv, updateTail, osOpenRead, hoo,
        hfsr, hbin, hfs]
  · intro er hrr
    have hkey := key.2 er hrr
    rcases hfs : fromStream env bin fs with ⟨⟨e1, e2⟩, fs'⟩
    rw [hfs] at hkey
    injection hkey with he1 he2
    subst he1; subst he2
    refine ⟨?_, strOccurs_combine_left e er, strOccurs_combine_right e er⟩
    constructor <;>
      simp [Update, UpdateForce, hexec, hinfo, hv, updateTail, osOpenRead, hoo,
        hfsr, hbin, hfs]

/-- Witness for C2 at concrete scenarios: promote fails with recovery
succeeding, and promote and recovery both fail. -/
theorem update_promote_failure_errors_witness :
    (Update envPromFail uStd fsApp).err = some "promote denied" ∧
    (Update envPromRecFail uStd fsApp).err =
      some (combineErrors (some "promote denied") "recover denied") ∧
    strOccurs "promote denied" (combineErrors (some "promote denied") "recover denied") ∧
    strOccurs "recover denied" (combineErrors (some "promote denied") "recover denied") := by
  have hA := update_promote_failure_errors envPromFail uStd fsApp "/d/app" "2.0"
    [9, 9, 9] ⟨[1, 2, 3], 0o700, false⟩ ⟨[1, 2, 3], 0o700, false⟩ "promote denied"
    rfl rfl (by decide) rfl (by decide) rfl rfl rfl rfl rfl (by decide)
    (by decide) (by decide) (by decide) rfl
  have hB := update_promote_failure_errors envPromRecFail uStd fsApp "/d/app" "2.0"
    [9, 9, 9] ⟨[1, 2, 3], 0o700, false⟩ ⟨[1, 2, 3], 0o700, false⟩ "promote denied"
    rfl rfl (by decide) rfl (by decide) rfl rfl rfl rfl rfl (by decide)
    (by decide) (by decide) (by decide) rfl
  exact ⟨(hA.1 rfl).1, ((hB.2 "recover denied" rfl).1).1,
    (hB.2 "recover denied" rfl).2.1, (hB.2 "recover denied" rfl).2.2⟩

/-- C3: for every byte string `B`, a replacement transaction in which
staging and both renames succeed returns no error, leaves the canonical
executable path containing exactly `B`, leaves no staging file behind, and
the backup is deleted, or marked hidden when its deletion fails and the
hide call succeeds. -/
theorem fromStream_success_roundtrip
    (env : Env) (B : Bytes) (fs : FS) (p : String) (d : FileData)
    (hexec : env.osExecutable = .ok p)
    (hread : env.readAll = none)
    (hnew : env.openNew = none)
    (hcopy : env.copyNew = none)
    (hevac : env.renameEvac = none)
    (hprom : env.renamePromote = none)
    (horig : fs p = some d)
    (h1 : p ≠ newPathOf p) (h2 : p ≠ oldPathOf p) (h3 : newPathOf p ≠ oldPathOf p) :
    (fromStream env B fs).1 = (none, none) ∧
    ((fromStream env B fs).2 p).map FileData.contents = some B ∧
    (fromStream env B fs).2 (newPathOf p) = none ∧
    (env.removeBackup = none → (fromStream env B fs).2 (oldPathOf p) = none) ∧
    (∀ e, env.removeBackup = some e → env.hideBackup = none →
      ((fromStream env B fs).2 (oldPathOf p)).map FileData.hidden = some true) :=
  fromStream_success_spec env B fs p d hexec hread hnew hcopy hevac hprom horig h1 h2 h3

/-- Witness for C3: the transaction over `/d/app` with bytes `[9, 9, 9]`,
once with the backup removal succeeding and once with it failing. -/
theorem fromStream_success_roundtrip_witness :
    (fromStream envOk [9, 9, 9] fsApp).1 = (none, none) ∧
    ((fromStream envOk [9, 9, 9] fsApp).2 "/d/app").map FileData.contents = some [9, 9, 9] ∧
    (fromStream envOk [9, 9, 9] fsApp).2 (newPathOf "/d/app") = none ∧
    (fromStream envOk [9, 9, 9] fsApp).2 (oldPathOf "/d/app") = none ∧
    ((fromStream envRmBackupFail [9, 9, 9] fsApp).2 (oldPathOf "/d/app")).map
      FileData.hidden = some true := by
  have hA := fromStream_success_roundtrip envOk [9, 9, 9] fsApp "/d/app"
    ⟨[1, 2, 3], 0o700, false⟩ rfl rfl rfl rfl rfl rfl (by decide)
    (by decide) (by decide) (by decide)
  have hB := fromStream_success_roundtrip envRmBackupFail [9, 9, 9] fsApp "/d/app"
    ⟨[1, 2, 3], 0o700, false⟩ rfl rfl rfl rfl rfl rfl (by decide)
    (by decide) (by decide) (by decide)
  exact ⟨hA.1, hA.2.1, hA.2.2.1, hA.2.2.2.1 rfl, hB.2.2.2.2 "backup busy" rfl rfl⟩

/-- C4 (counterexample): with the manifest fetch set up to fail and a
version left in `Info` from an earlier fetch, `UpdateForce` succeeds
without ever requesting the manifest and fetches the binary for the stored
version, while the claim's reading (`Update` minus only the equality
short-circuit) would have resolved the manifest and surfaced its error. -/
theorem updateForce_skips_manifest_cx :
    (UpdateForce envNoManifest uStale fsApp).err = none ∧
    (UpdateForce envNoManifest uStale fsApp).trace = [Event.fetchBinary "9.9"] ∧
    Event.fetchManifest ∉ (UpdateForce envNoManifest uStale fsApp).trace ∧
    (UpdateForceSpec envNoManifest uStale fsApp).err = some "manifest down" ∧
    ((UpdateForce envNoManifest uStale fsApp).fs "/d/app").map FileData.contents =
      some [9, 9, 9] := by
  decide

/-- C4 (amended): `UpdateForce` is `Update` with both the manifest
resolution and the version-equality short-circuit removed — it fetches the
binary for the version already stored in `u.Info` and performs the swap
unconditionally. -/
theorem updateForce_eq_minus_manifest : ∀ (env : Env) (u : Updater) (fs : FS),
    UpdateForce env u fs = UpdateMinusManifestAndCheck env u fs :=
  fun _ _ _ => rfl

/-- C5 (counterexample): with the OS reporting symlink `/d/link` that
resolves to `/d/real`, both `Update` and `UpdateForce` succeed but the
replacement transaction runs at the unresolved path: `/d/real` keeps its
old bytes while `/d/link` receives the new binary. -/
theorem update_swaps_at_unresolved_path_cx :
    resolvePath envSym "/d/link" = "/d/real" ∧
    (Update envSym uStd fsSym).err = none ∧
    (Update envSym uStd fsSym).fs "/d/real" = some ⟨[7], 0o755, false⟩ ∧
    (Update envSym uStd fsSym).fs "/d/link" = some ⟨[9, 9, 9], 0o755, false⟩ ∧
    (Update envSym uStd fsSym).fs "/d/.real.old" = none ∧
    (UpdateForce envSym uStd fsSym).err = none ∧
    (UpdateForce envSym uStd fsSym).fs "/d/real" = some ⟨[7], 0o755, false⟩ ∧
    (UpdateForce envSym uStd fsSym).fs "/d/link" = some ⟨[9, 9, 9], 0o755, false⟩ ∧
    (UpdateForce envSym uStd fsSym).fs "/d/.real.old" = none := by
  decide

/-- C5 (amended): `Update` and `UpdateForce` resolve the symlink target but
use the resolved path only to open the original for reading; `fromStream`
re-queries the executable path without resolving symlinks, so in both
operations the transaction stages, evacuates and promotes at the unresolved
path, leaving the resolved target untouched. -/
theorem update_resolved_only_for_read
    (env : Env) (u : Updater) (fs : FS) (p r v : String) (bin : Bytes)
    (d dr : FileData)
    (hexec : env.osExecutable = .ok p)
    (hres : env.evalSymlinks p = .ok r)
    (hinfo : env.fetchInfo = .ok v)
    (hv : v ≠ u.currentVersion)
    (hoo : env.openOld = none)
    (hfsr : fs r = some dr)
    (hbin : env.fetchBin = .ok bin)
    (hread : env.readAll = none)
    (hnew : env.openNew = none)
    (hcopy : env.copyNew = none)
    (hevac : env.renameEvac = none)
    (hprom : env.renamePromote = none)
    (horig : fs p = some d)
    (h1 : p ≠ newPathOf p) (h2 : p ≠ oldPathOf p) (h3 : newPathOf p ≠ oldPathOf p)
    (h4 : r ≠ p) (h5 : r ≠ newPathOf p) (h6 : r ≠ oldPathOf p) :
    ((Update env u fs).err = none ∧
     (Update env u fs).fs r = some dr ∧
     ((Update env u fs).fs p).map FileData.contents = some bin) ∧
    ((UpdateForce env u fs).err = none ∧
     (UpdateForce env u fs).fs r = some dr ∧
     ((UpdateForce env u fs).fs p).map FileData.contents = some bin) := by
  have hmain := fromStream_success_spec env bin fs p d hexec hread hnew hcopy hevac
    hprom horig h1 h2 h3
  have hframe := fromStream_success_frame env bin fs p d hexec hread hnew hcopy hevac
    hprom horig h1 h2 h3
  rcases hfs : fromStream env bin fs with ⟨⟨e1, e2⟩, fs'⟩
  rw [hfs] at hmain hframe
  simp only at hmain hframe
  obtain ⟨hee, hc, -, -, -⟩ := hmain
  injection hee with he1 he2
  subst he1; subst he2
  have hr : fs' r = fs r := hframe r h4 h5 h6
  refine ⟨⟨?_, ?_, ?_⟩, ?_, ?_, ?_⟩ <;>
    simp [Update, UpdateForce, hexec, resolvePath, hres, hinfo, hv, updateTail,
      osOpenRead, hoo, hfsr, hbin, hfs, hr, hc]

/-- Witness for C5 (amended) at the concrete symlink scenario, for both
`Update` and `UpdateForce`. -/
theorem update_resolved_only_for_read_witness :
    ((Update envSym uStd fsSym).err = none ∧
     (Update envSym uStd fsSym).fs "/d/real" = some ⟨[7], 0o755, false⟩ ∧
     ((Update envSym uStd fsSym).fs "/d/link").map FileData.contents = some [9, 9, 9]) ∧
    ((UpdateForce envSym uStd fsSym).err = none ∧
     (UpdateForce envSym uStd fsSym).fs "/d/real" = some ⟨[7], 0o755, false⟩ ∧
     ((UpdateForce envSym uStd fsSym).fs "/d/link").map FileData.contents =
       some [9, 9, 9]) :=
  update_resolved_only_for_read envSym uStd fsSym "/d/link" "/d/real" "2.0"
    [9, 9, 9] ⟨[1], 0o755, false⟩ ⟨[7], 0o755, false⟩
    rfl rfl rfl (by decide) rfl (by decide) rfl rfl rfl rfl rfl rfl (by decide)
    (by decide) (by decide) (by decide) (by decide) (by decide) (by decide)

/-- C6 (counterexample): with `currentVersion = "dev"` and a reachable
manifest advertising a different version, `Update()` fetches the manifest
and the binary and swaps the executable — the claim that `Update()` makes
no network request for the sentinel version is false (only `WantUpdate` and
`BackgroundRun` honour the sentinel). -/
theorem update_dev_still_fetches_cx :
    uDev.currentVersion = "dev" ∧
    (Update envOk uDev fsApp).trace = [Event.fetchManifest, Event.fetchBinary "2.0"] ∧
    (Update envOk uDev fsApp).err = none ∧
    ((Update envOk uDev fsApp).fs "/d/app").map FileData.contents = some [9, 9, 9] := by
  decide

/-- C6 (amended): for the sentinel version `"dev"`, `WantUpdate` returns
`false` and `BackgroundRun` performs no network request, mutates nothing
and returns nil; `Update()`, however, does not consult the sentinel and
still fetches the manifest whenever the executable path is available. -/
theorem dev_sentinel_behavior (env : Env) (u : Updater) (fs : FS)
    (hdev : u.currentVersion = "dev") :
    WantUpdate u = false ∧
    BackgroundRun env u fs = ⟨none, fs, [], u⟩ ∧
    (∀ p, env.osExecutable = .ok p →
      Event.fetchManifest ∈ (Update env u fs).trace) := by
  have hw : WantUpdate u = false := by simp [WantUpdate, hdev]
  refine ⟨hw, by simp [BackgroundRun, hw], ?_⟩
  intro p hexec
  rcases hfi : env.fetchInfo with e | v
  · simp [Update, hexec, hfi]
  · by_cases hveq : v = u.currentVersion
    · simp [Update, hexec, hfi, hveq]
    · simp only [Update, hexec, hfi, hveq, if_false, ite_false]
      exact mem_updateTail_trace _ _ _ _ _ _ (by simp)

/-- Witness for C6 (amended) at the concrete all-success environment. -/
theorem dev_sentinel_behavior_witness :
    WantUpdate uDev = false ∧
    BackgroundRun envOk uDev fsApp = ⟨none, fsApp, [], uDev⟩ ∧
    Event.fetchManifest ∈ (Update envOk uDev fsApp).trace :=
  ⟨(dev_sentinel_behavior envOk uDev fsApp rfl).1,
   (dev_sentinel_behavior envOk uDev fsApp rfl).2.1,
   (dev_sentinel_behavior envOk uDev fsApp rfl).2.2 "/d/app" rfl⟩

/-- C7: `UpdateAvailable` compares the fetched manifest version to the
current version by exact string equality, returning the empty string on an
exact match and the manifest version (downgrades included) otherwise, with
a nil error either way. -/
theorem updateAvailable_exact_string_match
    (env : Env) (u : Updater) (fs : FS) (p v : String)
    (hexec : env.osExecutable = .ok p)
    (hopen : osOpenRead env.openOld fs p = none)
    (hinfo : env.fetchInfo = .ok v) :
    UpdateAvailable env u fs =
      ((if v = u.currentVersion then "" else v, none), fs, [Event.fetchManifest]) := by
  simp only [UpdateAvailable, hexec, hopen, hinfo]
  split <;> rfl

/-- Witness for C7: a differing version (reported available) and an exactly
equal one (reported as the empty string). -/
theorem updateAvailable_exact_string_match_witness :
    UpdateAvailable envOk uStd fsApp = (("2.0", none), fsApp, [Event.fetchManifest]) ∧
    UpdateAvailable envEqVer uStd fsApp = (("", none), fsApp, [Event.fetchManifest]) := by
  constructor
  · have h := updateAvailable_exact_string_match envOk uStd fsApp "/d/app" "2.0"
      rfl (by decide) rfl
    rw [if_neg (by decide)] at h
    exact h
  · have h := updateAvailable_exact_string_match envEqVer uStd fsApp "/d/app" "1.0"
      rfl (by decide) rfl
    simpa [uStd] using h

/-- C8: when the fetched manifest version equals the current version,
`Update` returns nil right after the manifest fetch: the binary is not
fetched, the filesystem is returned unchanged, and only `Info` is
refreshed, so a repeated call in this state mutates nothing. -/
theorem update_same_version_no_mutation
    (env : Env) (u : Updater) (fs : FS) (p v : String)
    (hexec : env.osExecutable = .ok p)
    (hinfo : env.fetchInfo = .ok v)
    (heq : v = u.currentVersion) :
    Update env u fs =
      ⟨none, fs, [Event.fetchManifest], ⟨u.currentVersion, v, u.hasCallback⟩⟩ := by
  simp [Update, hexec, hinfo, heq]

/-- Witness for C8 at the environment whose manifest version equals the
session's current version. -/
theorem update_same_version_no_mutation_witness :
    Update envEqVer uStd fsApp =
      ⟨none, fsApp, [Event.fetchManifest], ⟨"1.0", "1.0", false⟩⟩ :=
  update_same_version_no_mutation envEqVer uStd fsApp "/d/app" "1.0" rfl rfl rfl

/-- C9 (counterexample): the original executable has permission bits
`0o700`, yet the staged file `.app.new` is created with bits `0o755` — the
staging mode is hard-coded, not matched to the original's bits. -/
theorem staged_perm_not_original_cx :
    fsApp "/d/app" = some ⟨[1, 2, 3], 0o700, false⟩ ∧
    (fromStream envEvacFail [5] fsApp).2 (newPathOf "/d/app") =
      some ⟨[5], 0o755, false⟩ ∧
    (0o755 : Nat) ≠ 0o700 := by
  decide

/-- C9 (amended): the staged temp file `.{name}.new` is created in the same
directory as the original (the path is derived from the original's
directory) but with the fixed permission bits `0o755` whatever the
original's bits are; here observed by failing the evacuate rename so the
staged file survives. -/
theorem staged_file_fixed_perm
    (env : Env) (B : Bytes) (fs : FS) (p e : String)
    (hexec : env.osExecutable = .ok p)
    (hread : env.readAll = none)
    (hnew : env.openNew = none)
    (hcopy : env.copyNew = none)
    (hnp : fs (newPathOf p) = none)
    (h3 : newPathOf p ≠ oldPathOf p)
    (hevac : env.renameEvac = some e) :
    (fromStream env B fs).1 = (some e, none) ∧
    (fromStream env B fs).2 (newPathOf p) = some ⟨B, 0o755, false⟩ := by
  rcases hrp : env.removePre with _ | e0 <;>
  rcases hold : fs (oldPathOf p) with _ | dold <;>
    simp [fromStream, hexec, hread, osCreateTrunc, hnew, osWriteAll, hcopy,
      osRemove, osRename, hevac, hrp, fsSet, fsRemove, hnp, hold, h3, Ne.symm h3]

/-- Witness for C9 (amended): staging bytes `[5]` beside `/d/app`. -/
theorem staged_file_fixed_perm_witness :
    (fromStream envEvacFail [5] fsApp).1 = (some "evac denied", none) ∧
    (fromStream envEvacFail [5] fsApp).2 (newPathOf "/d/app") =
      some ⟨[5], 0o755, false⟩ :=
  staged_file_fixed_perm envEvacFail [5] fsApp "/d/app" "evac denied"
    rfl rfl rfl rfl (by decide) (by decide) rfl

/-- C10: `UpdateAvailable` returns a non-nil error with an empty network
trace when the executable path cannot be determined or the executable
cannot be opened for reading, and on every path it returns the filesystem
unchanged. -/
theorem updateAvailable_early_error_no_network
    (env : Env) (u : Updater) (fs : FS) :
    (∀ e, env.osExecutable = .error e →
      UpdateAvailable env u fs = (("", some e), fs, [])) ∧
    (∀ p e, env.osExecutable = .ok p → osOpenRead env.openOld fs p = some e →
      UpdateAvailable env u fs = (("", some e), fs, [])) ∧
    (UpdateAvailable env u fs).2.1 = fs := by
  refine ⟨?_, ?_, ?_⟩
  · intro e he
    simp [UpdateAvailable, he]
  · intro p e hp hop
    simp [UpdateAvailable, hp, hop]
  · rcases he : env.osExecutable with e | p
    · simp [UpdateAvailable, he]
    · rcases hop : osOpenRead env.openOld fs p with _ | e
      · rcases hfi : env.fetchInfo with e | v
        · simp [UpdateAvailable, he, hop, hfi]
        · by_cases hveq : v = u.currentVersion <;>
            simp [UpdateAvailable, he, hop, hfi, hveq]
      · simp [UpdateAvailable, he, hop]

/-- Witness for C10 at the three concrete environments: unresolvable
executable path, unopenable executable, and the all-success run. -/
theorem updateAvailable_early_error_no_network_witness :
    UpdateAvailable envExecFail uStd fsApp = (("", some "no exec path"), fsApp, []) ∧
    UpdateAvailable envOpenFail uStd fsApp = (("", some "open denied"), fsApp, []) ∧
    (UpdateAvailable envOk uStd fsApp).2.1 = fsApp :=
  ⟨(updateAvailable_early_error_no_network envExecFail uStd fsApp).1 "no exec path" rfl,
   (updateAvailable_early_error_no_network envOpenFail uStd fsApp).2.1 "/d/app"
     "open denied" rfl rfl,
   (updateAvailable_early_error_no_network envOk uStd fsApp).2.2⟩
